import Mathlib

set_option maxRecDepth 4000

namespace OdinWeb

/-- HTTP status of a response entry: a numeric status code or the swagger
default marker used by DefaultResponse.  Modelled from the spec: the
HTTPStatus constants live in constants.py, which is not among the sources;
only the numeric codes matter here. -/
inductive Status where
  | code (n : Nat)
  | default
deriving DecidableEq, Repr

/-- Modelled from the spec: response entries (status, description, optional
schema reference) live in data_structures.py, which is not among the
sources.  Equality for set de-duplication purposes is by status code within
one descriptor's response set; the optional schema is a resource name. -/
structure Response where
  status : Status
  description : String
  resource : Option String := none
deriving DecidableEq, Repr

/-- Python set.add on a response set: a no-op when an entry with the same
status is already present (set membership is by status, see Response),
otherwise the new entry is inserted. -/
def addResponse (rs : List Response) (r : Response) : List Response :=
  if rs.any (fun x => x.status == r.status) then rs else rs ++ [r]

/-- Swagger parameter location. Modelled from the spec: data_structures.py
is not among the sources. -/
inductive ParamIn where
  | path | query | body
deriving DecidableEq, Repr

/-- Swagger primitive types from constants.py (not among the sources). -/
inductive SwType where
  | integer | string | boolean | number
deriving DecidableEq, Repr

/-- Modelled from the spec: parameter entries (location, name, type,
description, default, max constraints) live in data_structures.py, which is
not among the sources. -/
structure Param where
  location : ParamIn
  name : String
  type : SwType := .string
  description : String := ""
  default : Option Int := none
  maximum : Option Int := none
deriving DecidableEq, Repr

/-- Python set.add on a parameter set (full structural equality). -/
def addParam (ps : List Param) (p : Param) : List Param :=
  if ps.contains p then ps else ps ++ [p]

/-- HTTP methods from constants.py (not among the sources). -/
inductive Method where
  | GET | POST | PUT | PATCH | DELETE
deriving DecidableEq, Repr

/-- Modelled from the spec: the path model lives in data_structures.py,
which is not among the sources.  A typed, named parameter placeholder;
PathNode defaults to an integer-typed node. -/
structure PathNode where
  name : String
  type : SwType := .integer
deriving DecidableEq, Repr

/-- One node of a UrlPath: a literal segment or a parameter placeholder. -/
inductive UrlSeg where
  | literal (s : String)
  | node (n : PathNode)
deriving DecidableEq, Repr

/-- Metadata that decorator layering may already have attached to a plain
callback; Operation.init probes these attributes with getattr and copies any
that are present (decorators.py lines 96-100).  The name identifies the
callback. -/
structure CallbackMeta where
  name : String
  deprecated : Option Bool := none
  consumes : Option (List String) := none
  produces : Option (List String) := none
  responses : Option (List Response) := none
  parameters : Option (List Param) := none
deriving DecidableEq, Repr

/-- A container (ResourceApi) instance a descriptor can be bound to.  Python
attribute access is dynamic, so every attribute the code may probe is an
optional field; note that bind_to_instance probes the attribute literally
named pos_dispatch (decorators.py line 144), which is distinct from
post_dispatch.  Hooks are abstracted to identifiers. -/
structure Instance where
  id : Nat
  pre_dispatch : Option Nat := none
  post_dispatch : Option Nat := none
  pos_dispatch : Option Nat := none
  resource : Option String := none
  tags : List String := []
deriving DecidableEq, Repr

/-- Paging configuration of ListOperation (decorators.py lines 230-241);
None models an unset maximum. -/
structure ListConfig where
  default_offset : Int := 0
  default_limit : Int := 50
  max_offset : Option Int := none
  max_limit : Option Int := none
deriving DecidableEq, Repr

/-- Which of the three descriptor classes a descriptor belongs to. -/
inductive OpKind where
  | plain
  | listing (cfg : ListConfig)
  | resourceBody
deriving DecidableEq, Repr

/-- State of one Operation descriptor, with the fields Operation.init
assigns (decorators.py lines 61-103). -/
structure Operation where
  kind : OpKind
  base_callback : CallbackMeta
  url_path : List UrlSeg
  methods : List Method
  _resource : Option String
  sort_key : Nat
  binding : Option Instance
  _pre_dispatch : Option Nat
  _post_dispatch : Option Nat
  deprecated : Bool
  summary : Option String
  consumes : List String
  produces : List String
  responses : List Response
  parameters : List Param
  _tags : List String
deriving DecidableEq, Repr

/-- Resource name of the error-shape resource declared in resources.py
(not among the sources); modelled from the spec. -/
def errorResourceName : String := "Error"

/-- Resource name of the paged-listing-shape resource declared in
resources.py (not among the sources); modelled from the spec. -/
def listingResourceName : String := "Listing"

/-- Modelled from the spec: DefaultResponse (data_structures.py, not among
the sources) is a response entry carrying the swagger default status
marker. -/
def DefaultResponse (description : String) (res : Option String) : Response :=
  { status := .default, description := description, resource := res }

/-- Operation.init (decorators.py lines 61-103): records callback, path,
methods and resource, assigns the current value of the class-level counter
as the sort key, starts unbound, takes its own dispatch hooks from the
class via getattr on self (ownPre and ownPost; the three classes in the
sources define no such hooks, but a subclass may), copies any metadata the
callback already carries, and finally adds the default unhandled-error
response to the response set. -/
def Operation.init (kind : OpKind) (callback : CallbackMeta) (url_path : List UrlSeg)
    (methods : List Method) (resource : Option String) (tags : List String)
    (summary : Option String) (ownPre ownPost : Option Nat) (counter : Nat) : Operation :=
  let base : Operation := {
    kind := kind
    base_callback := callback
    url_path := url_path
    methods := methods
    _resource := resource
    sort_key := counter
    binding := none
    _pre_dispatch := ownPre
    _post_dispatch := ownPost
    deprecated := callback.deprecated.getD false
    summary := summary
    consumes := callback.consumes.getD []
    produces := callback.produces.getD []
    responses := callback.responses.getD []
    parameters := callback.parameters.getD []
    _tags := tags }
  { base with
    responses := addResponse base.responses
      (DefaultResponse "Unhandled error" (some errorResourceName)) }

/-- ListOperation.init (decorators.py lines 236-250): pops the paging
configuration, runs the base init, then adds the three documented query
parameters (offset, limit, bare). -/
def ListOperation.init (cfg : ListConfig) (callback : CallbackMeta) (url_path : List UrlSeg)
    (methods : List Method) (resource : Option String) (tags : List String)
    (summary : Option String) (counter : Nat) : Operation :=
  let base := Operation.init (.listing cfg) callback url_path methods resource tags
    summary none none counter
  let ps := addParam base.parameters
    { location := .query, name := "offset", type := .integer,
      description := "Offset to start listing from.",
      default := some cfg.default_offset, maximum := cfg.max_offset }
  let ps := addParam ps
    { location := .query, name := "limit", type := .integer,
      description := "Limit on the number of listings returned.",
      default := some cfg.default_limit, maximum := cfg.max_limit }
  let ps := addParam ps
    { location := .query, name := "bare", type := .boolean,
      description := "Return a plain list of objects." }
  { base with parameters := ps }

/-- ResourceOperation.init (decorators.py lines 289-293): runs the base init
and adds the body parameter documenting the expected input resource. -/
def ResourceOperation.init (callback : CallbackMeta) (url_path : List UrlSeg)
    (methods : List Method) (resource : Option String) (tags : List String)
    (summary : Option String) (counter : Nat) : Operation :=
  let base := Operation.init .resourceBody callback url_path methods resource tags
    summary none none counter
  let bodyParam : Param :=
    { location := .body, name := "body",
      description := "Expected resource supplied with request." }
  { base with parameters := addParam base.parameters bodyParam }

/-- Operation.bind_to_instance (decorators.py lines 134-144): stores the
instance as the binding unconditionally, then fills each dispatch hook that
is still None from the instance; the pre hook is read from the attribute
pre_dispatch, while the post hook is read from the attribute literally
named pos_dispatch. -/
def Operation.bind_to_instance (self : Operation) (inst : Instance) : Operation :=
  let s1 := { self with binding := some inst }
  let s2 := if s1._pre_dispatch = none
    then { s1 with _pre_dispatch := inst.pre_dispatch } else s1
  if s2._post_dispatch = none
    then { s2 with _post_dispatch := inst.pos_dispatch } else s2

/-- ASCII lower-casing of one character, used to model the
case-insensitive token match of utils.to_bool. -/
def lowerAscii (c : Char) : Char :=
  if 65 ≤ c.toNat ∧ c.toNat ≤ 90 then Char.ofNat (c.toNat + 32) else c

/-- Modelled from the spec: utils.to_bool is not among the sources; the
spec describes case-insensitive matching against a fixed set of truthy
tokens (true, 1, yes), anything else being falsy.  An absent query value
gives the Python default False. -/
def to_bool (v : Option String) : Bool :=
  match v with
  | none => false
  | some s => ["true", "1", "yes"].contains (String.mk (s.data.map lowerAscii))

/-- Query-string inputs read by ListOperation.execute; offset and limit are
the already-parsed integers (the int() conversion of a non-numeric string
is the transport collaborator's concern per the spec). -/
structure ListRequest where
  offset : Option Int := none
  limit : Option Int := none
  bare : Option String := none
deriving DecidableEq, Repr

/-- Offset value injected into path args (decorators.py lines 254-260).
The Python guard is the expression max_offset and offset greater-than
max_offset, so the clamp is skipped when max_offset is None or 0 (both
falsy), and the branches are an if/elif chain. -/
def ListOperation.injected_offset (cfg : ListConfig) (req : ListRequest) : Int :=
  let offset := req.offset.getD cfg.default_offset
  if offset < 0 then 0
  else match cfg.max_offset with
    | some m => if m ≠ 0 ∧ m < offset then m else offset
    | none => offset

/-- Limit value injected into path args (decorators.py lines 262-268),
with the same falsy-max quirk as the offset. -/
def ListOperation.injected_limit (cfg : ListConfig) (req : ListRequest) : Int :=
  let limit := req.limit.getD cfg.default_limit
  if limit < 1 then 1
  else match cfg.max_limit with
    | some m => if m ≠ 0 ∧ m < limit then m else limit
    | none => limit

/-- Shape of the value the delegate callback returns, as the Python code
discriminates it: None, a 2-element tuple (items, total count), or any
other value taken whole as the item collection. -/
inductive CBResult (α : Type) where
  | pynone
  | pair (items : α) (total : Int)
  | other (items : α)

/-- Result of a listing execution: the raw item collection (bare), or the
paged-listing envelope Listing(items, limit, offset, total count). -/
inductive ListValue (α : Type) where
  | raw (items : α)
  | listing (items : α) (limit : Int) (offset : Int) (total : Option Int)
deriving DecidableEq, Repr

/-- ListOperation.execute (decorators.py lines 252-280): clamps offset and
limit, injects them into the path args passed to the delegate callback,
reads the bare flag, then post-processes the delegate result: None stays
None, a 2-tuple is split into items and total count, anything else is the
item collection with no total; bare returns the items raw, otherwise they
are wrapped in the Listing envelope. -/
def ListOperation.execute {α : Type} (cfg : ListConfig) (req : ListRequest)
    (cb : Int → Int → CBResult α) : Option (ListValue α) :=
  let offset := ListOperation.injected_offset cfg req
  let limit := ListOperation.injected_limit cfg req
  let bare := to_bool req.bare
  match cb offset limit with
  | .pynone => none
  | .pair items total =>
      some (if bare then .raw items else .listing items limit offset (some total))
  | .other items =>
      some (if bare then .raw items else .listing items limit offset none)

/-- Shortcut listing (decorators.py lines 302-319): a ListOperation on the
collection root with method GET, default offset 0 and no max offset, plus
the 200 listing response. -/
def listing (callback : CallbackMeta) (resource : Option String)
    (default_limit : Int) (max_limit : Option Int) (tags : List String)
    (summary : Option String) (counter : Nat) : Operation :=
  let op := ListOperation.init
    { default_offset := 0, default_limit := default_limit,
      max_offset := none, max_limit := max_limit }
    callback [] [.GET] resource tags summary counter
  let rs := addResponse op.responses
    (Response.mk (.code 200) "Listing of resources" (some listingResourceName))
  { op with responses := rs }

/-- Shortcut create (decorators.py lines 322-337): a ResourceOperation on
the collection root with method POST, plus the 201 and 400 responses. -/
def create (callback : CallbackMeta) (resource : Option String) (tags : List String)
    (summary : Option String) (counter : Nat) : Operation :=
  let op := ResourceOperation.init callback [] [.POST] resource tags summary counter
  let rs := addResponse op.responses
    (Response.mk (.code 201) "{name} has been created" none)
  let rs := addResponse rs
    (Response.mk (.code 400) "Validation failed." (some errorResourceName))
  { op with responses := rs }

/-- Shortcut detail (decorators.py lines 340-355): a plain Operation on a
single resource_id path node with method GET, plus the 200 and 404
responses. -/
def detail (callback : CallbackMeta) (resource : Option String) (tags : List String)
    (summary : Option String) (counter : Nat) : Operation :=
  let op := Operation.init .plain callback [.node { name := "resource_id" }] [.GET]
    resource tags summary none none counter
  let rs := addResponse op.responses (Response.mk (.code 200) "Get a {name}" none)
  let rs := addResponse rs
    (Response.mk (.code 404) "Not found" (some errorResourceName))
  { op with responses := rs }

/-- Shortcut update (decorators.py lines 358-374): a ResourceOperation on a
single resource_id path node with method PUT, plus the 204, 400 and 404
responses. -/
def update (callback : CallbackMeta) (resource : Option String) (tags : List String)
    (summary : Option String) (counter : Nat) : Operation :=
  let op := ResourceOperation.init callback [.node { name := "resource_id" }] [.PUT]
    resource tags summary counter
  let rs := addResponse op.responses
    (Response.mk (.code 204) "{name} has been updated." none)
  let rs := addResponse rs
    (Response.mk (.code 400) "Validation failed." (some errorResourceName))
  let rs := addResponse rs
    (Response.mk (.code 404) "Not found" (some errorResourceName))
  { op with responses := rs }

/-- Shortcut patch (decorators.py lines 377-393): a ResourceOperation on a
single resource_id path node with method PATCH, plus the 200, 400 and 404
responses. -/
def patch (callback : CallbackMeta) (resource : Option String) (tags : List String)
    (summary : Option String) (counter : Nat) : Operation :=
  let op := ResourceOperation.init callback [.node { name := "resource_id" }] [.PATCH]
    resource tags summary counter
  let rs := addResponse op.responses
    (Response.mk (.code 200) "{name} has been patched." none)
  let rs := addResponse rs
    (Response.mk (.code 400) "Validation failed." (some errorResourceName))
  let rs := addResponse rs
    (Response.mk (.code 404) "Not found" (some errorResourceName))
  { op with responses := rs }

/-- Shortcut delete (decorators.py lines 396-409): a plain Operation on a
single resource_id path node with method DELETE and no explicit resource,
plus the 204 and 404 responses. -/
def delete (callback : CallbackMeta) (tags : List String)
    (summary : Option String) (counter : Nat) : Operation :=
  let op := Operation.init .plain callback [.node { name := "resource_id" }] [.DELETE]
    none tags summary none none counter
  let rs := addResponse op.responses
    (Response.mk (.code 204) "{name} has been deleted." none)
  let rs := addResponse rs
    (Response.mk (.code 404) "Not found" (some errorResourceName))
  { op with responses := rs }

/-- One requested construction in a registration sequence, covering the
three descriptor classes (each shortcut constructs one of them). -/
inductive ConstructStep where
  | plainOp (cb : CallbackMeta) (path : List UrlSeg) (ms : List Method)
  | listOp (cfg : ListConfig) (cb : CallbackMeta) (path : List UrlSeg) (ms : List Method)
  | resourceOp (cb : CallbackMeta) (path : List UrlSeg) (ms : List Method)
deriving Repr

/-- Run one construction with the class-level counter at the given value. -/
def runStep (s : ConstructStep) (counter : Nat) : Operation :=
  match s with
  | .plainOp cb p ms => Operation.init .plain cb p ms none [] none none none counter
  | .listOp cfg cb p ms => ListOperation.init cfg cb p ms none [] none counter
  | .resourceOp cb p ms => ResourceOperation.init cb p ms none [] none counter

/-- The class-level counter Operation._operation_count (decorators.py lines
52 and 77-78): every construction, through any of the three classes, reads
the counter as its sort key and increments it by one. -/
def buildSeq (counter : Nat) : List ConstructStep → List Operation
  | [] => []
  | s :: rest => runStep s counter :: buildSeq (counter + 1) rest

/-- Lookup in an association list keyed by strings (the model of Python
dict indexing used by parse_operations). -/
def alookup {β : Type} : List (String × β) → String → Option β
  | [], _ => none
  | (k, v) :: rest, key => if k = key then some v else alookup rest key

/-- Python dict assignment d[key] = v: replaces the value in place when the
key is present, otherwise appends the new pair. -/
def upsert {β : Type} : List (String × β) → String → β → List (String × β)
  | [], key, v => [(key, v)]
  | (k, w) :: rest, key, v =>
      if k = key then (key, v) :: rest else (k, w) :: upsert rest key v

/-- Python d.setdefault(key, dflt) followed by in-place mutation of the
stored value: applies f to the stored value (or to dflt for a fresh key),
keeping the entry's position. -/
def updEntry {β : Type} (dflt : β) : List (String × β) → String → (β → β) → List (String × β)
  | [], key, f => [(key, f dflt)]
  | (k, w) :: rest, key, f =>
      if k = key then (k, f w) :: rest else (k, w) :: updEntry dflt rest key f

/-- Keys of an association list, in insertion order. -/
def keysOf {β : Type} (d : List (String × β)) : List String := d.map (fun p => p.1)

/-- The resource a descriptor resolves to, abstracted to its resource name
and the shape of its resource_definition output (a schema identifier):
distinct underlying types may share a name but differ in schema. -/
structure ResourceInfo where
  name : String
  schema : Nat
deriving DecidableEq, Repr

/-- One (path, operation) pair of the parent's op_paths traversal as the
parse_operations loop consumes it: the stripped path rendered as a string,
the path-level parameters generated from its nodes, the operation's
methods, its to_doc output (abstracted to an identifier), and its resolved
resource if any. -/
structure TraversalEntry where
  pathStr : String
  pathParams : List Param
  methods : List Method
  doc : Nat
  res : Option ResourceInfo
deriving Repr

/-- One record of the paths table: the optional path-level parameters entry
and the lower-cased-method to operation-documentation mapping. -/
structure PathSpec where
  parameters : Option (List Param) := none
  methods : List (String × Nat) := []
deriving DecidableEq, Repr

/-- The empty dict a fresh path key starts from. -/
def emptyPathSpec : PathSpec := { parameters := none, methods := [] }

/-- Lower-cased method name used as the key in a path record. -/
def methodLower : Method → String
  | .GET => "get"
  | .POST => "post"
  | .PUT => "put"
  | .PATCH => "patch"
  | .DELETE => "delete"

/-- Schema identifier of the error-shape seed definition; modelled from the
spec (resource_definition over resources.py, not among the sources, is
abstracted to schema identifiers). -/
def errorSchemaId : Nat := 0

/-- Schema identifier of the paged-listing-shape seed definition; modelled
from the spec as for errorSchemaId. -/
def listingSchemaId : Nat := 1

/-- The two always-present seed definitions (swagger.py lines 144-147). -/
def seedDefs : List (String × Nat) :=
  [(errorResourceName, errorSchemaId), (listingResourceName, listingSchemaId)]

/-- In-place update of one path record by one loop iteration (swagger.py
lines 163-170): the parameters entry is set when the generated list is
non-empty, then each of the operation's methods maps to the operation's
documentation, overwriting any previous entry for that method. -/
def pathSpecUpdate (e : TraversalEntry) (ps : PathSpec) : PathSpec :=
  let ps2 := if e.pathParams = [] then ps else { ps with parameters := some e.pathParams }
  let ms2 := e.methods.foldl (fun ms m => upsert ms (methodLower m) e.doc) ps2.methods
  { ps2 with methods := ms2 }

/-- One iteration of the parse_operations loop (swagger.py lines 150-170)
over the accumulator (paths table, resource definitions): a resolved
resource overwrites the definition under its name; the path record is
fetched or created (setdefault) and updated in place. -/
def parseStep (acc : List (String × PathSpec) × List (String × Nat))
    (e : TraversalEntry) : List (String × PathSpec) × List (String × Nat) :=
  let defs := match e.res with
    | some r => upsert acc.2 r.name r.schema
    | none => acc.2
  let paths := updEntry emptyPathSpec acc.1 e.pathStr (pathSpecUpdate e)
  (paths, defs)

/-- SwaggerSpec.parse_operations (swagger.py lines 140-172): folds the
traversal once, starting from an empty paths table and the seeded
definitions. -/
def parse_operations (es : List TraversalEntry) :
    List (String × PathSpec) × List (String × Nat) :=
  es.foldl parseStep ([], seedDefs)

/-- Schema written under a given name by the last traversal entry whose
resolved resource carries that name, if any (later entries take
precedence: the last-writer-wins reference semantics). -/
def lastSchemaFor (es : List TraversalEntry) (n : String) : Option Nat :=
  match es with
  | [] => none
  | e :: tl =>
      match lastSchemaFor tl n with
      | some b => some b
      | none =>
        match e.res with
        | some r => if r.name = n then some r.schema else none
        | none => none

/-- Names of the resources resolved across the traversal, in order. -/
def encounteredNames (es : List TraversalEntry) : List String :=
  (es.filterMap (fun e => e.res)).map (fun r => r.name)

/-- Documentation stored in the paths table under a path string and a
method. -/
def methodDoc (paths : List (String × PathSpec)) (p : String) (m : Method) : Option Nat :=
  match alookup paths p with
  | some ps => alookup ps.methods (methodLower m)
  | none => none

/-- Documentation of the last traversal entry at the given stripped path
covering the given method, if any (later entries take precedence). -/
def lastMethodDoc (es : List TraversalEntry) (p : String) (m : Method) : Option Nat :=
  match es with
  | [] => none
  | e :: tl =>
      match lastMethodDoc tl p m with
      | some b => some b
      | none => if e.pathStr = p ∧ m ∈ e.methods then some e.doc else none

/-- Absolute filesystem paths are modelled as segment lists; normalisation
models os.path.abspath collapsing dot-dot segments (stepping above the
filesystem root stays at the root). -/
def normSegs (segs : List String) : List String :=
  segs.foldl (fun acc s =>
    if s = ".." then acc.dropLast else if s = "." then acc else acc ++ [s]) []

/-- Renders an absolute path to its character sequence, each segment behind
a slash, so that the string-prefix test of the source (str.startswith) is
modelled faithfully, sibling-directory quirks included. -/
def renderPath (segs : List String) : List Char :=
  segs.foldl (fun acc s => (acc ++ ['/']) ++ s.toList) []

/-- Environment of SwaggerSpec.load_static: the enable_ui flag, the static
directory (an already-absolute, normalised segment list), and the readable
files, given as contents by absolute path (None models any OSError on
open or read). -/
structure StaticEnv where
  enable_ui : Bool
  staticRoot : List String
  fs : List String → Option (List Nat)

/-- The resolved absolute path os.path.abspath(os.path.join(static_path,
file_name)) for a relative file name. -/
def resolvedPath (root : List String) (file_name : List String) : List String :=
  normSegs (root ++ file_name)

/-- SwaggerSpec.load_static (swagger.py lines 201-213): 404 unless the UI
is enabled; 404 when the resolved absolute path does not start with the
static root (string-prefix test); otherwise the file is read, any failure
becoming a 404.  Errors carry the HTTP status. -/
def load_static (env : StaticEnv) (file_name : List String) : Except Nat (List Nat) :=
  if env.enable_ui = false then .error 404
  else
    let file_path := resolvedPath env.staticRoot file_name
    if (renderPath env.staticRoot).isPrefixOf (renderPath file_path) then
      match env.fs file_path with
      | some content => .ok content
      | none => .error 404
    else .error 404

/-- A plain callback carrying no decorator metadata. -/
def cbPlain : CallbackMeta := { name := "cb" }

/-- A container instance with identifier 0 and no attributes of note. -/
def instA : Instance := { id := 0 }

/-- A second, distinct container instance. -/
def instB : Instance := { id := 1 }

/-- A container instance defining both dispatch-hook attributes under their
documented names, and no attribute named pos_dispatch. -/
def instHooks : Instance := { id := 2, pre_dispatch := some 5, post_dispatch := some 7 }

/-- C1: the claim is false on the code: binding a descriptor that is
already bound to one container instance to a different instance does not
raise and does not keep the previous binding; the owning-container
reference is silently replaced by the new instance. -/
theorem C1_counterexample :
    ((((Operation.init .plain cbPlain [] [.GET] none [] none none none 0
      ).bind_to_instance instA).bind_to_instance instB).binding = some instB) ∧
    ¬ ((((Operation.init .plain cbPlain [] [.GET] none [] none none none 0
      ).bind_to_instance instA).bind_to_instance instB).binding = some instA) := by
  decide

/-- C1 amended: rebinding is not guarded at all: for every descriptor (of
any variant) and every instance, bind_to_instance overwrites the
owning-container reference with the new instance. -/
theorem C1_rebind_overwrites (op : Operation) (inst : Instance) :
    (op.bind_to_instance inst).binding = some inst := by
  unfold Operation.bind_to_instance
  dsimp only
  split <;> split <;> rfl

/-- C3: binding a descriptor carrying no hooks of its own to an instance
that defines pre_dispatch and post_dispatch fills the pre hook as the
claim states, but leaves the post hook empty: the code probes the
misspelled attribute pos_dispatch instead of post_dispatch. -/
theorem C3_pos_dispatch_typo :
    (((Operation.init .plain cbPlain [] [.GET] none [] none none none 0
      ).bind_to_instance instHooks)._pre_dispatch = some 5) ∧
    (((Operation.init .plain cbPlain [] [.GET] none [] none none none 0
      ).bind_to_instance instHooks)._post_dispatch = none) ∧
    instHooks.post_dispatch = some 7 := by
  decide

/-- C2: the claim is false on the code: with max_offset configured as the
integer 0 (a set maximum), the Python truthiness guard skips the clamp, so
a supplied offset of 5 is injected unchanged although it exceeds the
configured maximum. -/
theorem C2_counterexample :
    ListOperation.injected_offset
      { default_offset := 0, default_limit := 50, max_offset := some 0, max_limit := none }
      { offset := some 5, limit := none, bare := none } = 5 ∧
    ¬ (ListOperation.injected_offset
      { default_offset := 0, default_limit := 50, max_offset := some 0, max_limit := none }
      { offset := some 5, limit := none, bare := none } ≤ (0 : Int)) := by
  decide

/-- C2 amended: whenever each configured maximum is positive (the guard
treats a zero maximum as unset and a negative maximum breaks even the
lower bounds), the injected values satisfy the claimed bounds: offset at
least 0 and at most max_offset when set, limit at least 1 and at most
max_limit when set, for every configuration and every supplied integers. -/
theorem C2_clamped_bounds (cfg : ListConfig) (req : ListRequest)
    (hoff : ∀ m, cfg.max_offset = some m → 0 < m)
    (hlim : ∀ m, cfg.max_limit = some m → 0 < m) :
    0 ≤ ListOperation.injected_offset cfg req ∧
    1 ≤ ListOperation.injected_limit cfg req ∧
    (∀ m, cfg.max_offset = some m → ListOperation.injected_offset cfg req ≤ m) ∧
    (∀ m, cfg.max_limit = some m → ListOperation.injected_limit cfg req ≤ m) := by
  unfold ListOperation.injected_offset ListOperation.injected_limit
  rcases ho : cfg.max_offset with _ | m
  · rcases hl : cfg.max_limit with _ | k
    · refine ⟨?_, ?_, ?_, ?_⟩ <;> simp_all <;> split <;> omega
    · have hk := hlim k hl
      refine ⟨?_, ?_, ?_, ?_⟩ <;> simp_all <;> split <;> (try split) <;> omega
  · have hm := hoff m ho
    rcases hl : cfg.max_limit with _ | k
    · refine ⟨?_, ?_, ?_, ?_⟩ <;> simp_all <;> split <;> (try split) <;> omega
    · have hk := hlim k hl
      refine ⟨?_, ?_, ?_, ?_⟩ <;> simp_all <;> split <;> (try split) <;> omega

/-- C2 amended, witnessed at a concrete configuration with positive maxima
and out-of-range inputs. -/
theorem C2_clamped_bounds_witness :
    0 ≤ ListOperation.injected_offset
      { default_offset := 0, default_limit := 50, max_offset := some 10, max_limit := some 20 }
      { offset := some 100, limit := some (-3), bare := none } ∧
    1 ≤ ListOperation.injected_limit
      { default_offset := 0, default_limit := 50, max_offset := some 10, max_limit := some 20 }
      { offset := some 100, limit := some (-3), bare := none } ∧
    (∀ m, (some 10 : Option Int) = some m → ListOperation.injected_offset
      { default_offset := 0, default_limit := 50, max_offset := some 10, max_limit := some 20 }
      { offset := some 100, limit := some (-3), bare := none } ≤ m) ∧
    (∀ m, (some 20 : Option Int) = some m → ListOperation.injected_limit
      { default_offset := 0, default_limit := 50, max_offset := some 10, max_limit := some 20 }
      { offset := some 100, limit := some (-3), bare := none } ≤ m) :=
  C2_clamped_bounds
    { default_offset := 0, default_limit := 50, max_offset := some 10, max_limit := some 20 }
    { offset := some 100, limit := some (-3), bare := none }
    (fun m hm => by injection hm with h2; omega)
    (fun m hm => by injection hm with h2; omega)

/-- The paging configuration the listing shortcut installs when called with
its default arguments. -/
def listingShortcutCfg : ListConfig :=
  { default_offset := 0, default_limit := 50, max_offset := none, max_limit := none }

/-- C4: listing execution post-processing: a delegate returning None gives
None with no envelope; a delegate returning a 2-tuple (items, total) gives,
when the bare flag is falsy, the Listing envelope carrying exactly the
items, the clamped limit, the clamped offset and the total, and, when the
bare flag is truthy, the raw items unwrapped (likewise for a non-tuple
result, with no total); and the scenario: the listing shortcut carries the
default configuration, under which the query offset 0, limit 2, bare false
and a delegate returning the pair of items 1, 2, 3 and total 10 yield the
envelope with the items unsliced, limit 2, offset 0 and total count 10. -/
theorem C4_listing_envelope :
    (∀ (α : Type) (cfg : ListConfig) (req : ListRequest),
      ListOperation.execute cfg req (fun _ _ => (CBResult.pynone : CBResult α)) = none) ∧
    (∀ (α : Type) (cfg : ListConfig) (req : ListRequest) (items : α) (total : Int),
      to_bool req.bare = false →
      ListOperation.execute cfg req (fun _ _ => CBResult.pair items total) =
        some (.listing items (ListOperation.injected_limit cfg req)
          (ListOperation.injected_offset cfg req) (some total))) ∧
    (∀ (α : Type) (cfg : ListConfig) (req : ListRequest) (items : α) (total : Int),
      to_bool req.bare = true →
      ListOperation.execute cfg req (fun _ _ => CBResult.pair items total) =
        some (.raw items)) ∧
    (∀ (α : Type) (cfg : ListConfig) (req : ListRequest) (items : α),
      to_bool req.bare = true →
      ListOperation.execute cfg req (fun _ _ => CBResult.other items) =
        some (.raw items)) ∧
    ((listing cbPlain none 50 none [] (some "List resources") 0).kind =
        .listing listingShortcutCfg ∧
      ListOperation.execute listingShortcutCfg
        { offset := some 0, limit := some 2, bare := some "false" }
        (fun _ _ => CBResult.pair [1, 2, 3] (10 : Int)) =
        some (.listing [1, 2, 3] 2 0 (some 10))) := by
  refine ⟨?_, ?_, ?_, ?_, ?_, ?_⟩
  · intro α cfg req
    rfl
  · intro α cfg req items total h
    simp [ListOperation.execute, h]
  · intro α cfg req items total h
    simp [ListOperation.execute, h]
  · intro α cfg req items h
    simp [ListOperation.execute, h]
  · rfl
  · decide

/-- C4 witnessed at a concrete configuration and request with the bare
hypotheses discharged by evaluation. -/
theorem C4_listing_envelope_witness :
    ListOperation.execute listingShortcutCfg
      { offset := some 3, limit := some 4, bare := some "false" }
      (fun _ _ => CBResult.pair [9] (42 : Int)) =
      some (.listing [9]
        (ListOperation.injected_limit listingShortcutCfg
          { offset := some 3, limit := some 4, bare := some "false" })
        (ListOperation.injected_offset listingShortcutCfg
          { offset := some 3, limit := some 4, bare := some "false" }) (some 42)) ∧
    ListOperation.execute listingShortcutCfg
      { offset := some 3, limit := some 4, bare := some "true" }
      (fun _ _ => CBResult.pair [9] (42 : Int)) = some (.raw [9]) ∧
    ListOperation.execute listingShortcutCfg
      { offset := some 3, limit := some 4, bare := some "true" }
      (fun _ _ => (CBResult.other [8] : CBResult (List Nat))) = some (.raw [8]) ∧
    ListOperation.execute listingShortcutCfg
      { offset := some 3, limit := some 4, bare := none }
      (fun _ _ => (CBResult.pynone : CBResult (List Nat))) = none :=
  ⟨C4_listing_envelope.2.1 (List Nat) listingShortcutCfg
      { offset := some 3, limit := some 4, bare := some "false" } [9] 42 (by decide),
    C4_listing_envelope.2.2.1 (List Nat) listingShortcutCfg
      { offset := some 3, limit := some 4, bare := some "true" } [9] 42 (by decide),
    C4_listing_envelope.2.2.2.1 (List Nat) listingShortcutCfg
      { offset := some 3, limit := some 4, bare := some "true" } [8] (by decide),
    C4_listing_envelope.1 (List Nat) listingShortcutCfg
      { offset := some 3, limit := some 4, bare := none }⟩

/-- Number of entries of a response set carrying a given status. -/
def countStatus (rs : List Response) (s : Status) : Nat :=
  rs.countP (fun r => r.status == s)

theorem countStatus_addResponse_of_ne (rs : List Response) (r : Response) (s : Status)
    (h : ¬ r.status = s) : countStatus (addResponse rs r) s = countStatus rs s := by
  unfold addResponse
  split
  · rfl
  · simp [countStatus, List.countP_append, List.countP_cons, h]

theorem countStatus_addResponse_default (rs : List Response)
    (h : countStatus rs .default ≤ 1) (r : Response) (hr : r.status = .default) :
    countStatus (addResponse rs r) Status.default = 1 := by
  unfold addResponse
  split
  · rename_i hany
    have hpos : 0 < countStatus rs .default := by
      rw [countStatus, List.countP_pos_iff]
      obtain ⟨x, hx, hbeq⟩ := List.any_eq_true.mp hany
      refine ⟨x, hx, ?_⟩
      simp only [beq_iff_eq] at hbeq ⊢
      rw [hbeq, hr]
    omega
  · rename_i hany
    have hall : ∀ a ∈ rs, ¬ a.status = Status.default := by
      intro a ha
      have hx := (List.any_eq_false.mp (Bool.not_eq_true _ |>.mp hany)) a ha
      simp only [beq_iff_eq] at hx
      rw [hr] at hx
      exact hx
    have hz : List.countP (fun r => r.status == Status.default) rs = 0 :=
      List.countP_eq_zero.mpr (fun a ha => by simpa using hall a ha)
    simp [countStatus, List.countP_append, List.countP_cons, hr, hz]

/-- C5: for a callback whose own response metadata (a Python set, holding
at most one entry per status) carries at most one default entry, every
constructor and every shortcut yields a descriptor whose response set
contains exactly one entry with the default unhandled-error status. -/
theorem C5_default_response (cb : CallbackMeta)
    (h : countStatus (cb.responses.getD []) .default ≤ 1) :
    (∀ kind url ms res tags summary ownPre ownPost c,
      countStatus (Operation.init kind cb url ms res tags summary
        ownPre ownPost c).responses .default = 1) ∧
    (∀ cfg url ms res tags summary c,
      countStatus (ListOperation.init cfg cb url ms res tags
        summary c).responses .default = 1) ∧
    (∀ url ms res tags summary c,
      countStatus (ResourceOperation.init cb url ms res tags
        summary c).responses .default = 1) ∧
    (∀ res dl ml tags summary c,
      countStatus (listing cb res dl ml tags summary c).responses .default = 1) ∧
    (∀ res tags summary c,
      countStatus (create cb res tags summary c).responses .default = 1) ∧
    (∀ res tags summary c,
      countStatus (detail cb res tags summary c).responses .default = 1) ∧
    (∀ res tags summary c,
      countStatus (update cb res tags summary c).responses .default = 1) ∧
    (∀ res tags summary c,
      countStatus (patch cb res tags summary c).responses .default = 1) ∧
    (∀ tags summary c,
      countStatus (delete cb tags summary c).responses .default = 1) := by
  have hbase : ∀ rs1, rs1 = cb.responses.getD [] →
      countStatus (addResponse rs1
        (DefaultResponse "Unhandled error" (some errorResourceName))) .default = 1 := by
    intro rs1 h1
    exact countStatus_addResponse_default rs1 (h1 ▸ h) _ rfl
  refine ⟨?_, ?_, ?_, ?_, ?_, ?_, ?_, ?_, ?_⟩
  · intro kind url ms res tags summary ownPre ownPost c
    exact hbase _ rfl
  · intro cfg url ms res tags summary c
    exact hbase _ rfl
  · intro url ms res tags summary c
    exact hbase _ rfl
  · intro res dl ml tags summary c
    exact (countStatus_addResponse_of_ne _ _ _ (by decide)).trans (hbase _ rfl)
  · intro res tags summary c
    exact (countStatus_addResponse_of_ne _ _ _ (by decide)).trans
      ((countStatus_addResponse_of_ne _ _ _ (by decide)).trans (hbase _ rfl))
  · intro res tags summary c
    exact (countStatus_addResponse_of_ne _ _ _ (by decide)).trans
      ((countStatus_addResponse_of_ne _ _ _ (by decide)).trans (hbase _ rfl))
  · intro res tags summary c
    exact (countStatus_addResponse_of_ne _ _ _ (by decide)).trans
      ((countStatus_addResponse_of_ne _ _ _ (by decide)).trans
        ((countStatus_addResponse_of_ne _ _ _ (by decide)).trans (hbase _ rfl)))
  · intro res tags summary c
    exact (countStatus_addResponse_of_ne _ _ _ (by decide)).trans
      ((countStatus_addResponse_of_ne _ _ _ (by decide)).trans
        ((countStatus_addResponse_of_ne _ _ _ (by decide)).trans (hbase _ rfl)))
  · intro tags summary c
    exact (countStatus_addResponse_of_ne _ _ _ (by decide)).trans
      ((countStatus_addResponse_of_ne _ _ _ (by decide)).trans (hbase _ rfl))

/-- C5 witnessed on a metadata-free callback, through a plain constructor
and through the delete shortcut. -/
theorem C5_default_response_witness :
    countStatus (Operation.init .plain cbPlain [] [.GET] none [] none
      none none 0).responses .default = 1 ∧
    countStatus (delete cbPlain [] none 3).responses .default = 1 :=
  ⟨(C5_default_response cbPlain (by decide)).1 .plain [] [.GET] none [] none none none 0,
    (C5_default_response cbPlain (by decide)).2.2.2.2.2.2.2.2 [] none 3⟩

/-- C6: the claim is false on the code: applied to a metadata-free
callback, the delete shortcut's response set has three entries, not two:
the 204 and 404 entries plus the always-present default error entry. -/
theorem C6_counterexample :
    (delete cbPlain [] none 0).responses.length = 3 ∧
    ¬ (delete cbPlain [] none 0).responses.length = 2 := by
  decide

/-- C6 amended: for every callback carrying no response metadata of its
own, the delete shortcut produces a DELETE operation on a single
resource_id path parameter whose response set consists of the default
error entry plus exactly two others, one with status 204 and one with
status 404. -/
theorem C6_delete_shape (cb : CallbackMeta) (h : cb.responses = none)
    (tags : List String) (summary : Option String) (c : Nat) :
    (delete cb tags summary c).methods = [Method.DELETE] ∧
    (delete cb tags summary c).url_path =
      [UrlSeg.node { name := "resource_id", type := .integer }] ∧
    (delete cb tags summary c).responses.length = 3 ∧
    countStatus (delete cb tags summary c).responses .default = 1 ∧
    countStatus (delete cb tags summary c).responses (.code 204) = 1 ∧
    countStatus (delete cb tags summary c).responses (.code 404) = 1 := by
  have hr : (delete cb tags summary c).responses =
      [DefaultResponse "Unhandled error" (some errorResourceName),
        Response.mk (.code 204) "{name} has been deleted." none,
        Response.mk (.code 404) "Not found" (some errorResourceName)] := by
    show addResponse (addResponse (addResponse (cb.responses.getD [])
      (DefaultResponse "Unhandled error" (some errorResourceName)))
      (Response.mk (.code 204) "{name} has been deleted." none))
      (Response.mk (.code 404) "Not found" (some errorResourceName)) = _
    rw [h]
    decide
  refine ⟨rfl, rfl, ?_, ?_, ?_, ?_⟩ <;> rw [hr] <;> decide

/-- C6 amended, witnessed on a metadata-free callback. -/
theorem C6_delete_shape_witness :
    (delete cbPlain [] none 0).methods = [Method.DELETE] ∧
    (delete cbPlain [] none 0).url_path =
      [UrlSeg.node { name := "resource_id", type := .integer }] ∧
    (delete cbPlain [] none 0).responses.length = 3 ∧
    countStatus (delete cbPlain [] none 0).responses .default = 1 ∧
    countStatus (delete cbPlain [] none 0).responses (.code 204) = 1 ∧
    countStatus (delete cbPlain [] none 0).responses (.code 404) = 1 :=
  C6_delete_shape cbPlain rfl [] none 0

theorem sort_key_runStep (s : ConstructStep) (c : Nat) : (runStep s c).sort_key = c := by
  cases s <;> rfl

/-- C9: over every finite registration sequence mixing the three descriptor
classes and every starting counter value, the assigned sort keys are the
consecutive values from the counter on, hence strictly increasing in
construction order and pairwise unique. -/
theorem C9_sort_keys (c : Nat) (steps : List ConstructStep) :
    (buildSeq c steps).map Operation.sort_key = List.range' c steps.length ∧
    ((buildSeq c steps).map Operation.sort_key).Pairwise (· < ·) ∧
    ((buildSeq c steps).map Operation.sort_key).Nodup := by
  have hmap : ∀ (c' : Nat) (steps' : List ConstructStep),
      (buildSeq c' steps').map Operation.sort_key = List.range' c' steps'.length := by
    intro c' steps'
    induction steps' generalizing c' with
    | nil => rfl
    | cons s tl ih => simp [buildSeq, List.range'_succ, sort_key_runStep, ih]
  refine ⟨hmap c steps, ?_, ?_⟩
  · rw [hmap c steps]
    exact List.pairwise_lt_range' c steps.length
  · rw [hmap c steps]
    exact List.nodup_range' c steps.length

theorem alookup_upsert_self {β : Type} (d : List (String × β)) (k : String) (v : β) :
    alookup (upsert d k v) k = some v := by
  induction d with
  | nil => simp [upsert, alookup]
  | cons hd tl ih =>
    obtain ⟨k1, v1⟩ := hd
    by_cases h : k1 = k
    · simp [upsert, alookup, h]
    · simp [upsert, alookup, h, ih]

theorem keysOf_cons {β : Type} (k : String) (v : β) (d : List (String × β)) :
    keysOf ((k, v) :: d) = k :: keysOf d := rfl

theorem alookup_upsert_ne {β : Type} (d : List (String × β)) (k key : String) (v : β)
    (h : ¬ k = key) : alookup (upsert d k v) key = alookup d key := by
  induction d with
  | nil => simp [upsert, alookup, h]
  | cons hd tl ih =>
    obtain ⟨k1, v1⟩ := hd
    by_cases h1 : k1 = k
    · subst h1
      simp [upsert, alookup, h, fun hh : k1 = key => h hh]
    · simp [upsert, alookup, h1, ih]

theorem keysOf_upsert {β : Type} (d : List (String × β)) (k : String) (v : β) :
    keysOf (upsert d k v) = if k ∈ keysOf d then keysOf d else keysOf d ++ [k] := by
  induction d with
  | nil => simp [upsert, keysOf]
  | cons hd tl ih =>
    obtain ⟨k1, v1⟩ := hd
    by_cases h : k1 = k
    · subst h
      have hcons : upsert ((k1, v1) :: tl) k1 v = (k1, v) :: tl := by simp [upsert]
      rw [hcons, keysOf_cons, keysOf_cons, if_pos (List.mem_cons_self _ _)]
    · have hcons : upsert ((k1, v1) :: tl) k v = (k1, v1) :: upsert tl k v := by
        simp [upsert, h]
      rw [hcons, keysOf_cons, keysOf_cons, ih]
      by_cases hm : k ∈ keysOf tl
      · rw [if_pos hm, if_pos (List.mem_cons_of_mem k1 hm)]
      · have hnc : ¬ k ∈ k1 :: keysOf tl := by
          intro hc
          rcases List.mem_cons.mp hc with h1 | h1
          · exact h h1.symm
          · exact hm h1
        rw [if_neg hm, if_neg hnc]
        rfl

theorem nodup_keysOf_upsert {β : Type} (d : List (String × β)) (k : String) (v : β)
    (h : (keysOf d).Nodup) : (keysOf (upsert d k v)).Nodup := by
  rw [keysOf_upsert]
  split
  · exact h
  · rename_i hnot
    simp [List.nodup_append, h, hnot]

theorem alookup_updEntry_self {β : Type} (dflt : β) (d : List (String × β)) (k : String)
    (f : β → β) : alookup (updEntry dflt d k f) k = some (f ((alookup d k).getD dflt)) := by
  induction d with
  | nil => simp [updEntry, alookup]
  | cons hd tl ih =>
    obtain ⟨k1, v1⟩ := hd
    by_cases h : k1 = k
    · subst h
      simp [updEntry, alookup]
    · simp [updEntry, alookup, h, ih]

theorem alookup_updEntry_ne {β : Type} (dflt : β) (d : List (String × β)) (k key : String)
    (f : β → β) (h : ¬ k = key) :
    alookup (updEntry dflt d k f) key = alookup d key := by
  induction d with
  | nil => simp [updEntry, alookup, h]
  | cons hd tl ih =>
    obtain ⟨k1, v1⟩ := hd
    by_cases h1 : k1 = k
    · subst h1
      simp [updEntry, alookup, h, fun hh : k1 = key => h hh]
    · simp [updEntry, alookup, h1, ih]

theorem keysOf_updEntry {β : Type} (dflt : β) (d : List (String × β)) (k : String)
    (f : β → β) :
    keysOf (updEntry dflt d k f) = if k ∈ keysOf d then keysOf d else keysOf d ++ [k] := by
  induction d with
  | nil => simp [updEntry, keysOf]
  | cons hd tl ih =>
    obtain ⟨k1, v1⟩ := hd
    by_cases h : k1 = k
    · subst h
      have hcons : updEntry dflt ((k1, v1) :: tl) k1 f = (k1, f v1) :: tl := by
        simp [updEntry]
      rw [hcons, keysOf_cons, keysOf_cons, if_pos (List.mem_cons_self _ _)]
    · have hcons : updEntry dflt ((k1, v1) :: tl) k f = (k1, v1) :: updEntry dflt tl k f := by
        simp [updEntry, h]
      rw [hcons, keysOf_cons, keysOf_cons, ih]
      by_cases hm : k ∈ keysOf tl
      · rw [if_pos hm, if_pos (List.mem_cons_of_mem k1 hm)]
      · have hnc : ¬ k ∈ k1 :: keysOf tl := by
          intro hc
          rcases List.mem_cons.mp hc with h1 | h1
          · exact h h1.symm
          · exact hm h1
        rw [if_neg hm, if_neg hnc]
        rfl

theorem nodup_keysOf_updEntry {β : Type} (dflt : β) (d : List (String × β)) (k : String)
    (f : β → β) (h : (keysOf d).Nodup) : (keysOf (updEntry dflt d k f)).Nodup := by
  rw [keysOf_updEntry]
  split
  · exact h
  · rename_i hnot
    simp [List.nodup_append, h, hnot]

theorem alookup_parseStep_defs (acc : List (String × PathSpec) × List (String × Nat))
    (e : TraversalEntry) (n : String) :
    alookup (parseStep acc e).2 n =
      match (match e.res with
        | some r => if r.name = n then some r.schema else none
        | none => none) with
      | some s => some s
      | none => alookup acc.2 n := by
  rcases acc with ⟨paths, ds⟩
  rcases hres : e.res with _ | r
  · simp [parseStep, hres]
  · by_cases h : r.name = n
    · subst h
      simp [parseStep, hres, alookup_upsert_self]
    · simp [parseStep, hres, h, alookup_upsert_ne ds r.name n r.schema h]

theorem encounteredNames_cons (e : TraversalEntry) (tl : List TraversalEntry) :
    encounteredNames (e :: tl) =
      match e.res with
      | some r => r.name :: encounteredNames tl
      | none => encounteredNames tl := by
  rcases h : e.res with _ | r <;> simp [encounteredNames, List.filterMap_cons, h]

theorem alookup_foldl_parseStep_defs (es : List TraversalEntry) :
    ∀ (acc : List (String × PathSpec) × List (String × Nat)) (n : String),
    alookup (es.foldl parseStep acc).2 n =
      match lastSchemaFor es n with
      | some s => some s
      | none => alookup acc.2 n := by
  induction es with
  | nil =>
    intro acc n
    rfl
  | cons e tl ih =>
    intro acc n
    rw [List.foldl_cons, ih]
    rcases hlast : lastSchemaFor tl n with _ | s
    · have h2 : lastSchemaFor (e :: tl) n = (match e.res with
          | some r => if r.name = n then some r.schema else none
          | none => none) := by
        rw [lastSchemaFor, hlast]
      rw [h2, alookup_parseStep_defs]
    · have h2 : lastSchemaFor (e :: tl) n = some s := by
        rw [lastSchemaFor, hlast]
      rw [h2]

theorem lastSchemaFor_isSome (es : List TraversalEntry) (n : String) :
    (lastSchemaFor es n).isSome = true ↔ n ∈ encounteredNames es := by
  induction es with
  | nil =>
    simp [lastSchemaFor, encounteredNames]
  | cons e tl ih =>
    rw [lastSchemaFor, encounteredNames_cons]
    rcases hlast : lastSchemaFor tl n with _ | s
    · rw [hlast] at ih
      simp only [Option.isSome_none, Bool.false_eq_true, false_iff] at ih
      rcases hres : e.res with _ | r
      · simp [ih]
      · by_cases hn : r.name = n
        · simp [hn]
        · have hn2 : ¬ n = r.name := fun hh => hn hh.symm
          simp [hn, ih, hn2]
    · rw [hlast] at ih
      simp only [Option.isSome_some, true_iff] at ih
      rcases hres : e.res with _ | r
      · simp [ih]
      · simp [List.mem_cons, ih]

theorem nodup_keysOf_parse_defs (es : List TraversalEntry) :
    ∀ acc : List (String × PathSpec) × List (String × Nat),
    (keysOf acc.2).Nodup → (keysOf (es.foldl parseStep acc).2).Nodup := by
  induction es with
  | nil =>
    intro acc h
    exact h
  | cons e tl ih =>
    intro acc h
    rw [List.foldl_cons]
    refine ih _ ?_
    rcases acc with ⟨paths, ds⟩
    rcases hres : e.res with _ | r
    · simpa [parseStep, hres] using h
    · simp only [parseStep, hres]
      exact nodup_keysOf_upsert ds r.name r.schema h

/-- C7: over every traversal, the synthesized definitions mapping holds one
entry per name, carries an entry under the error-shape name and one under
the paged-listing-shape name, maps every name to the schema of the last
traversal entry resolving to a resource of that name (falling back to the
seeded schemas), and holds a name exactly when it is a seed name or the
name of some resolved resource. -/
theorem C7_definitions_mapping (es : List TraversalEntry) :
    (keysOf (parse_operations es).2).Nodup ∧
    (alookup (parse_operations es).2 errorResourceName).isSome = true ∧
    (alookup (parse_operations es).2 listingResourceName).isSome = true ∧
    (∀ n : String,
      alookup (parse_operations es).2 n =
        match lastSchemaFor es n with
        | some s => some s
        | none => alookup seedDefs n) ∧
    (∀ n : String, (alookup (parse_operations es).2 n).isSome = true ↔
      (n = errorResourceName ∨ n = listingResourceName ∨ n ∈ encounteredNames es)) := by
  have hchar : ∀ n : String,
      alookup (parse_operations es).2 n =
        match lastSchemaFor es n with
        | some s => some s
        | none => alookup seedDefs n := by
    intro n
    exact alookup_foldl_parseStep_defs es ([], seedDefs) n
  have hseed : ∀ n : String, (alookup seedDefs n).isSome = true ↔
      (n = errorResourceName ∨ n = listingResourceName) := by
    intro n
    show (alookup [(errorResourceName, errorSchemaId),
      (listingResourceName, listingSchemaId)] n).isSome = true ↔ _
    by_cases h1 : errorResourceName = n
    · rw [alookup, if_pos h1]
      simp [h1.symm]
    · rw [alookup, if_neg h1]
      by_cases h2 : listingResourceName = n
      · rw [alookup, if_pos h2]
        simp [h2.symm]
      · rw [alookup, if_neg h2]
        show (alookup ([] : List (String × Nat)) n).isSome = true ↔ _
        rw [alookup]
        simp only [Option.isSome_none, Bool.false_eq_true, false_iff]
        intro hx
        rcases hx with hx | hx
        · exact h1 hx.symm
        · exact h2 hx.symm
  refine ⟨?_, ?_, ?_, hchar, ?_⟩
  · exact nodup_keysOf_parse_defs es ([], seedDefs) (by decide)
  · rw [hchar errorResourceName]
    rcases h : lastSchemaFor es errorResourceName with _ | s
    · show (alookup seedDefs errorResourceName).isSome = true
      decide
    · show (some s).isSome = true
      rfl
  · rw [hchar listingResourceName]
    rcases h : lastSchemaFor es listingResourceName with _ | s
    · show (alookup seedDefs listingResourceName).isSome = true
      decide
    · show (some s).isSome = true
      rfl
  · intro n
    rw [hchar n]
    rcases h : lastSchemaFor es n with _ | s
    · have hl := (lastSchemaFor_isSome es n)
      rw [h] at hl
      simp only [Option.isSome_none, Bool.false_eq_true, false_iff] at hl
      show (alookup seedDefs n).isSome = true ↔ _
      rw [hseed n]
      constructor
      · intro hx
        tauto
      · intro hx
        rcases hx with hx | hx | hx
        · exact Or.inl hx
        · exact Or.inr hx
        · exact absurd hx hl
    · have hl := (lastSchemaFor_isSome es n)
      rw [h] at hl
      simp only [Option.isSome_some, true_iff] at hl
      show (some s).isSome = true ↔ _
      simp [hl]

theorem methodLower_injective (a b : Method) (h : methodLower a = methodLower b) :
    a = b := by
  revert h
  cases a <;> cases b <;> decide

theorem alookup_foldl_upsert_methods (d : Nat) (key : String) (mms : List Method) :
    ∀ ms0 : List (String × Nat),
    alookup (mms.foldl (fun ms mm => upsert ms (methodLower mm) d) ms0) key =
      if key ∈ mms.map methodLower then some d else alookup ms0 key := by
  induction mms with
  | nil =>
    intro ms0
    simp
  | cons mm tl ih =>
    intro ms0
    rw [List.foldl_cons, ih]
    by_cases ht : key ∈ tl.map methodLower
    · rw [if_pos ht, if_pos (by simp [List.mem_cons, ht])]
    · by_cases hk : methodLower mm = key
      · rw [if_neg ht, if_pos (by simp [List.mem_cons, hk.symm]), hk]
        exact alookup_upsert_self ms0 key d
      · have hnc : ¬ key ∈ (mm :: tl).map methodLower := by
          rw [List.map_cons]
          intro hc
          rcases List.mem_cons.mp hc with h1 | h1
          · exact hk h1.symm
          · exact ht h1
        rw [if_neg ht, if_neg hnc, alookup_upsert_ne ms0 (methodLower mm) key d hk]

theorem pathSpecUpdate_methods (e : TraversalEntry) (ps : PathSpec) :
    (pathSpecUpdate e ps).methods =
      e.methods.foldl (fun ms mm => upsert ms (methodLower mm) e.doc) ps.methods := by
  by_cases hpar : e.pathParams = [] <;> simp [pathSpecUpdate, hpar]

theorem methodDoc_parseStep (acc : List (String × PathSpec) × List (String × Nat))
    (e : TraversalEntry) (p : String) (m : Method) :
    methodDoc (parseStep acc e).1 p m =
      if e.pathStr = p ∧ m ∈ e.methods then some e.doc else methodDoc acc.1 p m := by
  rcases acc with ⟨paths, ds⟩
  have hfst : (parseStep (paths, ds) e).1 =
      updEntry emptyPathSpec paths e.pathStr (pathSpecUpdate e) := rfl
  rw [hfst]
  by_cases hp : e.pathStr = p
  · subst hp
    rw [methodDoc, alookup_updEntry_self]
    show alookup (pathSpecUpdate e
      ((alookup paths e.pathStr).getD emptyPathSpec)).methods (methodLower m) = _
    rw [pathSpecUpdate_methods, alookup_foldl_upsert_methods]
    by_cases hm : m ∈ e.methods
    · rw [if_pos (List.mem_map.mpr ⟨m, hm, rfl⟩), if_pos ⟨rfl, hm⟩]
    · have hnm : ¬ methodLower m ∈ e.methods.map methodLower := by
        intro hc
        rcases List.mem_map.mp hc with ⟨a, ha, he⟩
        exact hm ((methodLower_injective a m he) ▸ ha)
      rw [if_neg hnm, if_neg (by intro hc; exact hm hc.2)]
      rw [methodDoc]
      rcases hface : alookup paths e.pathStr with _ | ps
      · rfl
      · rfl
  · have hp2 : ¬ e.pathStr = p := hp
    rw [methodDoc, alookup_updEntry_ne emptyPathSpec paths e.pathStr p _ hp2,
      if_neg (by intro hc; exact hp hc.1)]
    rfl

theorem methodDoc_foldl_parseStep (es : List TraversalEntry) :
    ∀ (acc : List (String × PathSpec) × List (String × Nat)) (p : String) (m : Method),
    methodDoc (es.foldl parseStep acc).1 p m =
      match lastMethodDoc es p m with
      | some b => some b
      | none => methodDoc acc.1 p m := by
  induction es with
  | nil =>
    intro acc p m
    rfl
  | cons e tl ih =>
    intro acc p m
    rw [List.foldl_cons, ih]
    rcases hlast : lastMethodDoc tl p m with _ | b
    · have h2 : lastMethodDoc (e :: tl) p m =
          (if e.pathStr = p ∧ m ∈ e.methods then some e.doc else none) := by
        rw [lastMethodDoc, hlast]
      rw [h2, methodDoc_parseStep]
      by_cases hc : e.pathStr = p ∧ m ∈ e.methods
      · rw [if_pos hc, if_pos hc]
      · rw [if_neg hc, if_neg hc]
    · have h2 : lastMethodDoc (e :: tl) p m = some b := by
        rw [lastMethodDoc, hlast]
      rw [h2]

theorem nodup_keysOf_parse_paths (es : List TraversalEntry) :
    ∀ acc : List (String × PathSpec) × List (String × Nat),
    (keysOf acc.1).Nodup → (keysOf (es.foldl parseStep acc).1).Nodup := by
  induction es with
  | nil =>
    intro acc h
    exact h
  | cons e tl ih =>
    intro acc h
    rw [List.foldl_cons]
    refine ih _ ?_
    rcases acc with ⟨paths, ds⟩
    exact nodup_keysOf_updEntry emptyPathSpec paths e.pathStr _ h

/-- C10: over every traversal, the synthesized paths table holds exactly
one record per stripped path string, and the documentation stored under a
path and a method is exactly that of the last traversal entry at that path
covering that method: entries at one path with disjoint methods all appear
in the one record, and a later entry silently replaces an earlier one for
each method they share. -/
theorem C10_paths_table (es : List TraversalEntry) :
    (keysOf (parse_operations es).1).Nodup ∧
    (∀ (p : String) (m : Method),
      methodDoc (parse_operations es).1 p m = lastMethodDoc es p m) := by
  constructor
  · exact nodup_keysOf_parse_paths es ([], seedDefs) (by decide)
  · intro p m
    rw [parse_operations, methodDoc_foldl_parseStep es ([], seedDefs) p m]
    rcases h : lastMethodDoc es p m with _ | b
    · rfl
    · rfl

/-- C8: for every environment and file name whose resolved absolute path
does not remain string-prefixed by the static root, load_static yields the
404 error and never consults the filesystem (the outcome is identical
under every filesystem); and whenever the resolved path names no readable
file, load_static also yields the 404 error. -/
theorem C8_static_sandbox (env : StaticEnv) (file_name : List String) :
    ((renderPath env.staticRoot).isPrefixOf
        (renderPath (resolvedPath env.staticRoot file_name)) = false →
      load_static env file_name = .error 404 ∧
      ∀ fs2 : List String → Option (List Nat),
        load_static { env with fs := fs2 } file_name = .error 404) ∧
    (env.fs (resolvedPath env.staticRoot file_name) = none →
      load_static env file_name = .error 404) := by
  constructor
  · intro hguard
    constructor
    · by_cases hui : env.enable_ui = false
      · simp [load_static, hui]
      · simp [load_static, hui, hguard]
    · intro fs2
      by_cases hui : env.enable_ui = false
      · simp [load_static, hui]
      · simp [load_static, hui, hguard]
  · intro hfs
    by_cases hui : env.enable_ui = false
    · simp [load_static, hui]
    · by_cases hpre : (renderPath env.staticRoot).isPrefixOf
          (renderPath (resolvedPath env.staticRoot file_name)) = true
      · simp [load_static, hui, hpre, hfs]
      · simp [load_static, hui, hpre]

/-- A static environment whose filesystem would happily serve any path:
only the prefix guard can refuse. -/
def staticEnvAnyFile : StaticEnv :=
  { enable_ui := true, staticRoot := ["app", "odinweb", "static"],
    fs := fun _ => some [1] }

/-- A static environment in which no file is readable. -/
def staticEnvNoFile : StaticEnv :=
  { enable_ui := true, staticRoot := ["app", "odinweb", "static"],
    fs := fun _ => none }

/-- C8 witnessed at the traversal name from the spec scenario and at an
in-root name that names no readable file. -/
theorem C8_static_sandbox_witness :
    load_static staticEnvAnyFile ["..", "..", "etc", "passwd"] = .error 404 ∧
    load_static staticEnvNoFile ["ui.html"] = .error 404 :=
  ⟨((C8_static_sandbox staticEnvAnyFile ["..", "..", "etc", "passwd"]).1 (by decide)).1,
    (C8_static_sandbox staticEnvNoFile ["ui.html"]).2 rfl⟩

end OdinWeb
